import Mathlib

/-!
Shallow embedding of the realtime chat/signaling relay in `src/api/index.ts`.

The server keeps three pieces of mutable state:
  * `onlineUsers : OnlineUser[]`            (presence registry),
  * `roomHost : Map<string, string>`        (room id ↦ host socket id),
  * transport-level group membership (socket.io rooms; sockets join/leave
    named groups, and every connected socket is implicitly a member of the
    group named by its own socket id).

JavaScript `Map` is insertion-ordered with unique keys; we model it as an
association list where `set` updates in place when the key is present and
appends otherwise, and lookups take the first match.  Falsy string checks
(`!userId`, `!room`, …) are modelled as equality with `""`; optional
payload fields are `Option`.  Each socket.io emission is recorded together
with the server state at the moment it was emitted, so ordering claims
about mutation vs. broadcast can be stated.
-/

namespace Chat

/-- One entry of `onlineUsers` (`type OnlineUser = { socketId; userId }`). -/
structure OnlineUser where
  socketId : String
  userId : String
  deriving DecidableEq

/-- `ChatMessagePayload`: `userId` is a string where `""` plays the role of a
falsy/absent field (the code tests it with `||`); `message` and `timestamp`
are `Option` because the code guards them with `?.` and `??`. -/
structure ChatMessagePayload where
  userId : String
  message : Option String
  timestamp : Option String
  deriving DecidableEq

/-- The whole mutable server state: presence list, host map, and the
transport-level group membership (room id ↦ member socket ids, join order). -/
structure ServerState where
  onlineUsers : List OnlineUser
  roomHost : List (String × String)
  rooms : List (String × List String)
  deriving DecidableEq

/-- `Map.get` (first matching key, JS maps have unique keys). -/
def mapGet (m : List (String × String)) (k : String) : Option String :=
  (m.find? (fun p => p.1 = k)).map (fun p => p.2)

/-- `Map.has`. -/
def mapHas (m : List (String × String)) (k : String) : Bool :=
  (m.find? (fun p => p.1 = k)).isSome

/-- `Map.set`: update in place if the key is present, else append. -/
def mapSet (m : List (String × String)) (k v : String) : List (String × String) :=
  if mapHas m k then m.map (fun p => if p.1 = k then (k, v) else p)
  else m ++ [(k, v)]

/-- `Map.delete`. -/
def mapDelete (m : List (String × String)) (k : String) : List (String × String) :=
  m.filter (fun p => p.1 ≠ k)

/-- Members of a transport group (`io.sockets.adapter.rooms.get(g)`, empty
set when the group does not exist). -/
def groupMembers (rs : List (String × List String)) (g : String) : List String :=
  match rs.find? (fun p => p.1 = g) with
  | some p => p.2
  | none => []

/-- `socket.join(g)`: add the socket to the group (idempotent). -/
def groupJoin (rs : List (String × List String)) (g sid : String) :
    List (String × List String) :=
  if (rs.find? (fun p => p.1 = g)).isSome then
    rs.map (fun p =>
      if p.1 = g then (g, if p.2.contains sid then p.2 else p.2 ++ [sid]) else p)
  else rs ++ [(g, [sid])]

/-- `socket.leave(g)`: remove the socket from the group.  (socket.io drops a
group once empty; we keep the empty entry, which is observationally the same
since membership is only ever read through `groupMembers`.) -/
def groupLeave (rs : List (String × List String)) (g sid : String) :
    List (String × List String) :=
  rs.map (fun p => if p.1 = g then (g, p.2.filter (fun m => m ≠ sid)) else p)

/-- The outbound events the handlers emit, with their addressing mode. -/
inductive Output where
  /-- `io.emit("usersOnline", onlineUsers)`: to every connected socket. -/
  | usersOnline (users : List OnlineUser)
  /-- `io.emit("chat:message", …)`: to every connected socket. -/
  | chatMessage (userId message timestamp : String)
  /-- `socket.to(room).emit('rtc:joined', {from})`: room members except sender. -/
  | rtcJoined (room sender : String)
  /-- `socket.to(room).emit('rtc:left', {from})`: room members except sender. -/
  | rtcLeft (room sender : String)
  /-- `socket.to(to).emit('rtc:offer', {from, offer})`: the `to` group only. -/
  | rtcOffer (target sender offer : String)
  /-- `socket.to(to).emit('rtc:answer', {from, answer})`. -/
  | rtcAnswer (target sender answer : String)
  /-- `socket.to(to).emit('rtc:ice', {from, candidate})`. -/
  | rtcIce (target sender candidate : String)
  /-- `io.to(room).emit('meeting:ended')`: room members, sender included. -/
  | meetingEnded (room : String)
  /-- `socket.emit('meeting:end:denied')`: the requesting socket only. -/
  | meetingEndDenied (target : String)
  deriving DecidableEq

/-- An emission together with the server state at the moment it was sent. -/
structure Emission where
  atState : ServerState
  out : Output
  deriving DecidableEq

/-- Is `sid` a currently connected socket (it has a presence entry)? -/
def isConnected (st : ServerState) (sid : String) : Bool :=
  st.onlineUsers.any (fun u => u.socketId = sid)

/-- Socket ids of all connected sockets. -/
def allSocketIds (st : ServerState) : List String :=
  st.onlineUsers.map (fun u => u.socketId)

/-- The delivery set of a socket.io room name `g`: its explicit members plus,
since every connected socket is auto-joined to the room named by its own id,
the socket `g` itself when connected. -/
def targetGroup (st : ServerState) (g : String) : List String :=
  if isConnected st g && !((groupMembers st.rooms g).contains g) then
    g :: groupMembers st.rooms g
  else groupMembers st.rooms g

/-- Which sockets a given output is delivered to, in the state at emission
time (socket.io semantics of `io.emit`, `socket.to(g).emit`, `io.to(g).emit`
and `socket.emit`). -/
def recipients (st : ServerState) (o : Output) : List String :=
  match o with
  | .usersOnline _ => allSocketIds st
  | .chatMessage _ _ _ => allSocketIds st
  | .rtcJoined room sender => (targetGroup st room).filter (fun m => m ≠ sender)
  | .rtcLeft room sender => (targetGroup st room).filter (fun m => m ≠ sender)
  | .rtcOffer target sender _ => (targetGroup st target).filter (fun m => m ≠ sender)
  | .rtcAnswer target sender _ => (targetGroup st target).filter (fun m => m ≠ sender)
  | .rtcIce target sender _ => (targetGroup st target).filter (fun m => m ≠ sender)
  | .meetingEnded room => targetGroup st room
  | .meetingEndDenied target => [target]

/-- `io.on("connection", …)` body before the per-event listeners: push a
fresh entry with empty `userId` and broadcast the presence list. -/
def connectHandler (st : ServerState) (sid : String) : ServerState × List Emission :=
  let st1 := { st with onlineUsers := st.onlineUsers ++ [⟨sid, ""⟩] }
  (st1, [⟨st1, .usersOnline st1.onlineUsers⟩])

/-- `findIndex` on `socketId` followed by assignment at that index, i.e.
replace the first entry whose `socketId` matches (others untouched). -/
def setFirstBySocket (users : List OnlineUser) (sid u : String) : List OnlineUser :=
  match users with
  | [] => []
  | v :: rest =>
    if v.socketId = sid then ⟨sid, u⟩ :: rest
    else v :: setFirstBySocket rest sid u

/-- The three-way merge of the `newUser` handler body (after the falsy
guard): overwrite own entry if present; else append if the `userId` is new;
else reassign every entry bearing that `userId` to this socket. -/
def announce (users : List OnlineUser) (sid u : String) : List OnlineUser :=
  if users.any (fun v => v.socketId = sid) then
    setFirstBySocket users sid u
  else if !(users.any (fun v => v.userId = u)) then
    users ++ [⟨sid, u⟩]
  else
    users.map (fun v => if v.userId = u then ⟨sid, u⟩ else v)

/-- `socket.on("newUser", …)`. -/
def newUserHandler (st : ServerState) (sid u : String) : ServerState × List Emission :=
  if u = "" then (st, [])
  else
    let st1 := { st with onlineUsers := announce st.onlineUsers sid u }
    (st1, [⟨st1, .usersOnline st1.onlineUsers⟩])

/-- JS `String.prototype.trim`: drop leading and trailing whitespace,
written over the character list so it evaluates by `decide`. -/
def jsTrim (s : String) : String :=
  ⟨((s.data.dropWhile Char.isWhitespace).reverse.dropWhile Char.isWhitespace).reverse⟩

/-- `payload?.message?.trim()`, with `undefined` collapsed to `""` (both are
falsy for the guard). -/
def trimmedMessageOf (p : ChatMessagePayload) : String :=
  (p.message.map jsTrim).getD ""

/-- `socket.on("chat:message", …)`; `now` is `new Date().toISOString()` at
the moment of relay. -/
def chatHandler (st : ServerState) (sid : String) (p : ChatMessagePayload)
    (now : String) : ServerState × List Emission :=
  let trimmedMessage := trimmedMessageOf p
  if trimmedMessage = "" then (st, [])
  else
    let sender := st.onlineUsers.find? (fun u => u.socketId = sid)
    let outUserId :=
      if p.userId ≠ "" then p.userId
      else
        match sender with
        | some u => if u.userId ≠ "" then u.userId else sid
        | none => sid
    let outTimestamp := p.timestamp.getD now
    (st, [⟨st, .chatMessage outUserId trimmedMessage outTimestamp⟩])

/-- `socket.on('rtc:join', …)`: join the group, claim the host slot if the
room has none, notify the other members. -/
def rtcJoinHandler (st : ServerState) (sid room : String) : ServerState × List Emission :=
  if room = "" then (st, [])
  else
    let st1 := { st with rooms := groupJoin st.rooms room sid }
    let st2 :=
      if mapHas st1.roomHost room then st1
      else { st1 with roomHost := mapSet st1.roomHost room sid }
    (st2, [⟨st2, .rtcJoined room sid⟩])

/-- `socket.on('rtc:leave', …)`. -/
def rtcLeaveHandler (st : ServerState) (sid room : String) : ServerState × List Emission :=
  if room = "" then (st, [])
  else
    let st1 := { st with rooms := groupLeave st.rooms room sid }
    (st1, [⟨st1, .rtcLeft room sid⟩])

/-- `socket.on('rtc:offer', …)`: guard on falsy fields, then point-to-point
forward tagged with the sender.  The offer payload is opaque; we model it as
a string whose falsy value is `""`. -/
def rtcOfferHandler (st : ServerState) (sid room target offer : String) :
    ServerState × List Emission :=
  if room = "" || target = "" || offer = "" then (st, [])
  else (st, [⟨st, .rtcOffer target sid offer⟩])

/-- `socket.on('rtc:answer', …)`. -/
def rtcAnswerHandler (st : ServerState) (sid room target answer : String) :
    ServerState × List Emission :=
  if room = "" || target = "" || answer = "" then (st, [])
  else (st, [⟨st, .rtcAnswer target sid answer⟩])

/-- `socket.on('rtc:ice', …)`. -/
def rtcIceHandler (st : ServerState) (sid room target candidate : String) :
    ServerState × List Emission :=
  if room = "" || target = "" || candidate = "" then (st, [])
  else (st, [⟨st, .rtcIce target sid candidate⟩])

/-- `socket.on('meeting:end', …)`: host check, then (in source order) the
room-wide `meeting:ended` emit, `roomHost.delete(room)`, and a loop making
every current member of the room leave it; non-hosts get a denial on their
own socket only. -/
def meetingEndHandler (st : ServerState) (sid room : String) :
    ServerState × List Emission :=
  if room = "" then (st, [])
  else
    match mapGet st.roomHost room with
    | some hostId =>
      if hostId ≠ "" && hostId = sid then
        let em : Emission := ⟨st, .meetingEnded room⟩
        let st1 := { st with roomHost := mapDelete st.roomHost room }
        let clients := groupMembers st1.rooms room
        let st2 := { st1 with
          rooms := clients.foldl (fun rs c => groupLeave rs room c) st1.rooms }
        (st2, [em])
      else (st, [⟨st, .meetingEndDenied sid⟩])
    | none => (st, [⟨st, .meetingEndDenied sid⟩])

/-- `socket.on('meeting:leave', …)`: leave the group and notify the others
(the source emits `rtc:left` here too). -/
def meetingLeaveHandler (st : ServerState) (sid room : String) :
    ServerState × List Emission :=
  if room = "" then (st, [])
  else
    let st1 := { st with rooms := groupLeave st.rooms room sid }
    (st1, [⟨st1, .rtcLeft room sid⟩])

/-- `socket.on("disconnect", …)`, in source order: filter the presence list,
emit `usersOnline`, then sweep `roomHost` deleting every room whose host is
the disconnecting socket.  The emission is recorded with the state as it was
at the emit, i.e. after the presence filter but before the host sweep. -/
def disconnectHandler (st : ServerState) (sid : String) : ServerState × List Emission :=
  let st1 := { st with onlineUsers := st.onlineUsers.filter (fun u => u.socketId ≠ sid) }
  let em : Emission := ⟨st1, .usersOnline st1.onlineUsers⟩
  let st2 := { st1 with roomHost := st1.roomHost.filter (fun p => p.2 ≠ sid) }
  (st2, [em])

/-- The named events a connection can produce, with the originating socket. -/
inductive Event where
  | connect (sid : String)
  | newUser (sid userId : String)
  | chatMessage (sid : String) (p : ChatMessagePayload) (now : String)
  | rtcJoin (sid room : String)
  | rtcLeave (sid room : String)
  | rtcOffer (sid room target offer : String)
  | rtcAnswer (sid room target answer : String)
  | rtcIce (sid room target candidate : String)
  | meetingEnd (sid room : String)
  | meetingLeave (sid room : String)
  | disconnect (sid : String)
  deriving DecidableEq

/-- The single-threaded event loop: dispatch one event to its handler. -/
def step (st : ServerState) : Event → ServerState × List Emission
  | .connect sid => connectHandler st sid
  | .newUser sid u => newUserHandler st sid u
  | .chatMessage sid p now => chatHandler st sid p now
  | .rtcJoin sid room => rtcJoinHandler st sid room
  | .rtcLeave sid room => rtcLeaveHandler st sid room
  | .rtcOffer sid room target offer => rtcOfferHandler st sid room target offer
  | .rtcAnswer sid room target answer => rtcAnswerHandler st sid room target answer
  | .rtcIce sid room target candidate => rtcIceHandler st sid room target candidate
  | .meetingEnd sid room => meetingEndHandler st sid room
  | .meetingLeave sid room => meetingLeaveHandler st sid room
  | .disconnect sid => disconnectHandler st sid

/-- The empty initial state (`onlineUsers = []`, `roomHost = new Map()`). -/
def initState : ServerState := ⟨[], [], []⟩

/-- Run a sequence of events, keeping only the final state. -/
def run (st : ServerState) (es : List Event) : ServerState :=
  es.foldl (fun s e => (step s e).1) st

end Chat

namespace Chat

/-! ### Helper lemmas about the map and group primitives -/

lemma mapHas_eq_isSome_mapGet (m : List (String × String)) (k : String) :
    mapHas m k = (mapGet m k).isSome := by
  unfold mapHas mapGet
  cases m.find? (fun p => p.1 = k) <;> rfl

lemma mapGet_overwrite (m : List (String × String)) (k v : String)
    (h : mapHas m k = true) :
    mapGet (m.map fun p => if p.1 = k then (k, v) else p) k = some v := by
  induction m with
  | nil => simp [mapHas] at h
  | cons a rest ih =>
    by_cases ha : a.1 = k
    · simp [mapGet, List.find?_cons, ha]
    · have hrest : mapHas rest k = true := by
        simpa [mapHas, List.find?_cons, ha] using h
      simpa [mapGet, List.find?_cons, ha] using ih hrest

lemma mapGet_append_single (m : List (String × String)) (k v : String)
    (h : mapHas m k = false) :
    mapGet (m ++ [(k, v)]) k = some v := by
  induction m with
  | nil => simp [mapGet]
  | cons a rest ih =>
    by_cases ha : a.1 = k
    · simp [mapHas, List.find?_cons, ha] at h
    · have hrest : mapHas rest k = false := by
        simpa [mapHas, List.find?_cons, ha] using h
      simpa [mapGet, List.find?_cons, ha] using ih hrest

lemma mapGet_mapSet_self (m : List (String × String)) (k v : String) :
    mapGet (mapSet m k v) k = some v := by
  unfold mapSet
  by_cases h : mapHas m k = true
  · rw [if_pos h]
    exact mapGet_overwrite m k v h
  · rw [if_neg h]
    exact mapGet_append_single m k v (by simpa using h)

lemma mapGet_mapDelete_self (m : List (String × String)) (k : String) :
    mapGet (mapDelete m k) k = none := by
  unfold mapGet mapDelete
  cases hf : (m.filter fun p => decide (p.1 ≠ k)).find? (fun p => p.1 = k) with
  | none => rfl
  | some q =>
    have hq := List.find?_some hf
    have hmem := List.mem_of_find?_eq_some hf
    have hne := (List.mem_filter.mp hmem).2
    simp at hq hne
    exact absurd hq hne

end Chat

namespace Chat

lemma setFirstBySocket_map_socketId (users : List OnlineUser) (sid u : String) :
    (setFirstBySocket users sid u).map (fun v => v.socketId)
      = users.map (fun v => v.socketId) := by
  induction users with
  | nil => rfl
  | cons v rest ih =>
    by_cases h : v.socketId = sid
    · simp [setFirstBySocket, h]
    · simp [setFirstBySocket, h, ih]

lemma setFirstBySocket_mem_self (users : List OnlineUser) (sid u : String)
    (h : users.any (fun v => v.socketId = sid) = true) :
    (⟨sid, u⟩ : OnlineUser) ∈ setFirstBySocket users sid u := by
  induction users with
  | nil => simp at h
  | cons v rest ih =>
    by_cases hv : v.socketId = sid
    · simp [setFirstBySocket, hv]
    · have hrest : rest.any (fun w => w.socketId = sid) = true := by
        simpa [hv] using h
      simp only [setFirstBySocket, if_neg hv]
      exact List.mem_cons_of_mem v (ih hrest)

lemma setFirstBySocket_mem_of_ne (users : List OnlineUser) (sid u : String)
    (w : OnlineUser) (hw : w ∈ users) (hne : w.socketId ≠ sid) :
    w ∈ setFirstBySocket users sid u := by
  induction users with
  | nil => simp at hw
  | cons v rest ih =>
    rcases List.mem_cons.mp hw with rfl | hmem
    · simp [setFirstBySocket, hne]
    · by_cases hv : v.socketId = sid
      · simp only [setFirstBySocket, if_pos hv]
        exact List.mem_cons_of_mem _ hmem
      · simp only [setFirstBySocket, if_neg hv]
        exact List.mem_cons_of_mem v (ih hmem)

lemma any_socketId_of_map_eq {l₁ l₂ : List OnlineUser} (c : String)
    (h : l₁.map (fun v => v.socketId) = l₂.map (fun v => v.socketId)) :
    l₁.any (fun v => v.socketId = c) = l₂.any (fun v => v.socketId = c) := by
  have h1 : ∀ l : List OnlineUser,
      l.any (fun v => v.socketId = c)
        = (l.map (fun v => v.socketId)).any (fun s => s = c) := by
    intro l
    induction l with
    | nil => rfl
    | cons v rest ih => simp [ih]
  rw [h1, h1, h]

lemma groupMembers_groupLeave (rs : List (String × List String)) (g sid : String) :
    groupMembers (groupLeave rs g sid) g
      = (groupMembers rs g).filter (fun m => m ≠ sid) := by
  induction rs with
  | nil => rfl
  | cons p rest ih =>
    by_cases h : p.1 = g
    · simp [groupLeave, groupMembers, List.find?_cons, h]
    · simpa [groupLeave, groupMembers, List.find?_cons, h] using ih

lemma groupMembers_leaveAll (clients : List String)
    (rs : List (String × List String)) (room : String) :
    groupMembers (clients.foldl (fun a c => groupLeave a room c) rs) room
      = (groupMembers rs room).filter (fun m => !(clients.contains m)) := by
  induction clients generalizing rs with
  | nil => simp
  | cons c cs ih =>
    rw [List.foldl_cons, ih, groupMembers_groupLeave, List.filter_filter]
    apply List.filter_congr
    intro m _
    by_cases hm : m = c <;> simp [hm]

end Chat

namespace Chat

lemma mem_targetGroup_of_mem_groupMembers (st : ServerState) (g m : String)
    (h : m ∈ groupMembers st.rooms g) : m ∈ targetGroup st g := by
  unfold targetGroup
  split
  · exact List.mem_cons_of_mem _ h
  · exact h

lemma mem_allSocketIds_of_isConnected (st : ServerState) (sid : String)
    (h : isConnected st sid = true) : sid ∈ allSocketIds st := by
  unfold isConnected at h
  rcases List.any_eq_true.mp h with ⟨u, hu, hsid⟩
  simp at hsid
  exact hsid ▸ List.mem_map_of_mem (fun v => v.socketId) hu

/-- C4: the first connection to join a room while it has no recorded host
becomes the host, and any later join (by anyone, the host included) leaves
the recorded host map entirely unchanged. -/
theorem C4_first_joiner_wins (st : ServerState) (c d room : String)
    (hroom : room ≠ "") :
    (mapGet st.roomHost room = none →
      mapGet ((rtcJoinHandler st c room).1).roomHost room = some c) ∧
    (∀ h, mapGet st.roomHost room = some h →
      ((rtcJoinHandler st d room).1).roomHost = st.roomHost) := by
  constructor
  · intro hnone
    have hhas : mapHas st.roomHost room = false := by
      rw [mapHas_eq_isSome_mapGet, hnone]
      rfl
    simp only [rtcJoinHandler, if_neg hroom, hhas]
    simpa [hhas] using mapGet_mapSet_self st.roomHost room c
  · intro h hsome
    have hhas : mapHas st.roomHost room = true := by
      rw [mapHas_eq_isSome_mapGet, hsome]
      rfl
    simp [rtcJoinHandler, if_neg hroom, hhas]

/-- C4 witness: on a concrete state, an empty-host room is claimed by the
first joiner, and a second join leaves the host map unchanged. -/
theorem C4_first_joiner_wins_witness :
    mapGet ((rtcJoinHandler initState "a" "r").1).roomHost "r" = some "a" ∧
    ((rtcJoinHandler (rtcJoinHandler initState "a" "r").1 "b" "r").1).roomHost
      = ((rtcJoinHandler initState "a" "r").1).roomHost := by
  constructor
  · exact (C4_first_joiner_wins initState "a" "b" "r" (by decide)).1 (by decide)
  · exact (C4_first_joiner_wins (rtcJoinHandler initState "a" "r").1 "a" "b" "r"
      (by decide)).2 "a" (by decide)

/-- C7: a chat payload whose message is absent or trims to the empty string
is silently dropped: no emission and the state is returned unchanged. -/
theorem C7_empty_message_dropped (st : ServerState) (sid : String)
    (p : ChatMessagePayload) (now : String) (hmsg : trimmedMessageOf p = "") :
    chatHandler st sid p now = (st, []) := by
  simp [chatHandler, hmsg]

/-- C7 witness: a whitespace-only message from a connected socket is dropped. -/
theorem C7_empty_message_dropped_witness :
    chatHandler ⟨[⟨"a", "u"⟩], [], []⟩ "a" ⟨"u", some "   ", none⟩ "t0"
      = (⟨[⟨"a", "u"⟩], [], []⟩, []) :=
  C7_empty_message_dropped ⟨[⟨"a", "u"⟩], [], []⟩ "a" ⟨"u", some "   ", none⟩ "t0"
    (by decide)

/-- C9: connecting a fresh socket and then disconnecting it (no events in
between) returns the presence list exactly to what it was before. -/
theorem C9_connect_disconnect_roundtrip (st : ServerState) (c : String)
    (hfresh : ∀ u ∈ st.onlineUsers, u.socketId ≠ c) :
    ((disconnectHandler (connectHandler st c).1 c).1).onlineUsers
      = st.onlineUsers := by
  simp only [connectHandler, disconnectHandler, List.filter_append]
  rw [List.filter_eq_self.mpr, List.filter_cons]
  · simp
  · intro u hu
    simpa using hfresh u hu

/-- C9 witness: concrete roundtrip on a two-user state. -/
theorem C9_connect_disconnect_roundtrip_witness :
    ((disconnectHandler (connectHandler ⟨[⟨"a", "u"⟩], [], []⟩ "b").1 "b").1).onlineUsers
      = [⟨"a", "u"⟩] :=
  C9_connect_disconnect_roundtrip ⟨[⟨"a", "u"⟩], [], []⟩ "b" (by decide)

end Chat

namespace Chat

/-- C1 counterexample: connect `"a"` and `"b"`, let `"a"` announce `"u"` and
then `"b"` announce the same `"u"`.  Because every connected socket already
has a presence entry, the second announcement only overwrites `"b"`'s own
entry, so TWO entries bear `"u"` — not exactly one as the claim states. -/
theorem C1_counterexample :
    ¬ (((run initState
          [.connect "a", .connect "b", .newUser "a" "u", .newUser "b" "u"]).onlineUsers.filter
        (fun v => v.userId = "u")).length = 1) := by
  decide

/-- C1 (amended): when both announcers are currently connected — the only
reachable situation, since `connection` always pushes an entry — announcing
the same non-empty `userId` from `c1` and then `c2` leaves BOTH presence
entries bearing that `userId`: `⟨c1, u⟩` and `⟨c2, u⟩` are both present, the
second announcement having only overwritten `c2`'s own entry.  The
"identity-steal" merge branch is unreachable for connected sockets. -/
theorem C1_same_userId_both_entries (st : ServerState) (c1 c2 u : String)
    (hne : c1 ≠ c2) (hu : u ≠ "")
    (h1 : isConnected st c1 = true) (h2 : isConnected st c2 = true) :
    (⟨c1, u⟩ : OnlineUser)
        ∈ ((newUserHandler (newUserHandler st c1 u).1 c2 u).1).onlineUsers ∧
    (⟨c2, u⟩ : OnlineUser)
        ∈ ((newUserHandler (newUserHandler st c1 u).1 c2 u).1).onlineUsers := by
  have hann1 : announce st.onlineUsers c1 u = setFirstBySocket st.onlineUsers c1 u := by
    unfold announce isConnected at *
    rw [if_pos h1]
  have hmap : (setFirstBySocket st.onlineUsers c1 u).map (fun v => v.socketId)
      = st.onlineUsers.map (fun v => v.socketId) :=
    setFirstBySocket_map_socketId st.onlineUsers c1 u
  have h2' : (setFirstBySocket st.onlineUsers c1 u).any (fun v => v.socketId = c2) = true := by
    rw [any_socketId_of_map_eq c2 hmap]
    exact h2
  have hann2 : announce (setFirstBySocket st.onlineUsers c1 u) c2 u
      = setFirstBySocket (setFirstBySocket st.onlineUsers c1 u) c2 u := by
    unfold announce
    rw [if_pos h2']
  have hstep2 : ((newUserHandler (newUserHandler st c1 u).1 c2 u).1).onlineUsers
      = setFirstBySocket (setFirstBySocket st.onlineUsers c1 u) c2 u := by
    simp [newUserHandler, hu, hann1, hann2]
  rw [hstep2]
  constructor
  · exact setFirstBySocket_mem_of_ne _ c2 u ⟨c1, u⟩
      (setFirstBySocket_mem_self st.onlineUsers c1 u (by unfold isConnected at h1; exact h1))
      hne
  · exact setFirstBySocket_mem_self _ c2 u h2'

/-- C1 witness: the amended statement evaluated on the concrete two-socket
run used in the counterexample. -/
theorem C1_same_userId_both_entries_witness :
    (⟨"a", "u"⟩ : OnlineUser)
        ∈ ((newUserHandler (newUserHandler (run initState [.connect "a", .connect "b"]) "a" "u").1 "b" "u").1).onlineUsers ∧
    (⟨"b", "u"⟩ : OnlineUser)
        ∈ ((newUserHandler (newUserHandler (run initState [.connect "a", .connect "b"]) "a" "u").1 "b" "u").1).onlineUsers :=
  C1_same_userId_both_entries (run initState [.connect "a", .connect "b"]) "a" "b" "u"
    (by decide) (by decide) (by decide) (by decide)

end Chat

namespace Chat

/-- A state where socket `"c"` is connected and hosts room `"r"`, used to
exhibit the ordering of the disconnect handler. -/
def c3State : ServerState := ⟨[⟨"c", ""⟩], [("r", "c")], [("r", ["c"])]⟩

/-- C3 counterexample: in the disconnect handler the `usersOnline` broadcast
(line 178) happens BEFORE the room-host sweep (lines 180–182).  At the
recorded emission state the disconnecting socket `"c"` is still the host of
`"r"`, refuting the claim that host release completes before the broadcast. -/
theorem C3_counterexample :
    ¬ (∀ em ∈ (disconnectHandler c3State "c").2,
        ∀ p ∈ em.atState.roomHost, p.2 ≠ "c") := by
  decide

/-- C3 (amended): for every disconnect, the presence removal completes
before the presence-update broadcast (the emission-time state has no entry
for the disconnecting socket, and its presence list already equals the final
one), while the host release completes only after the broadcast but before
the handler returns (the final state holds no room hosted by the socket).
The broadcast payload is unaffected, carrying only the presence list. -/
theorem C3_disconnect_order (st : ServerState) (c : String) :
    ∀ em ∈ (disconnectHandler st c).2,
      (∀ u ∈ em.atState.onlineUsers, u.socketId ≠ c) ∧
      em.atState.onlineUsers = ((disconnectHandler st c).1).onlineUsers ∧
      (∀ p ∈ ((disconnectHandler st c).1).roomHost, p.2 ≠ c) := by
  intro em hem
  simp only [disconnectHandler, List.mem_singleton] at hem
  subst hem
  refine ⟨?_, rfl, ?_⟩
  · intro u hu
    have := (List.mem_filter.mp hu).2
    simpa using this
  · intro p hp
    have := (List.mem_filter.mp hp).2
    simpa using this

/-- C3 witness: the amended ordering statement evaluated on `c3State`. -/
theorem C3_disconnect_order_witness :
    (∀ u ∈ (ServerState.mk [] [("r", "c")] [("r", ["c"])]).onlineUsers,
        u.socketId ≠ "c") ∧
    (ServerState.mk [] [("r", "c")] [("r", ["c"])]).onlineUsers
      = ((disconnectHandler c3State "c").1).onlineUsers ∧
    (∀ p ∈ ((disconnectHandler c3State "c").1).roomHost, p.2 ≠ "c") :=
  C3_disconnect_order c3State "c"
    ⟨⟨[], [("r", "c")], [("r", ["c"])]⟩, .usersOnline []⟩ (by decide)

lemma mapGet_eq_some_elim {m : List (String × String)} {k v : String}
    (h : mapGet m k = some v) :
    ∃ q ∈ m, q.1 = k ∧ q.2 = v := by
  unfold mapGet at h
  cases hf : m.find? (fun p => p.1 = k) with
  | none => rw [hf] at h; simp at h
  | some q =>
    rw [hf] at h
    have hq := List.find?_some hf
    have hmem := List.mem_of_find?_eq_some hf
    simp at hq h
    exact ⟨q, hmem, hq, h⟩

lemma mapGet_filter_value_ne (m : List (String × String)) (c k : String) :
    mapGet (m.filter fun p => p.2 ≠ c) k ≠ some c := by
  intro h
  rcases mapGet_eq_some_elim h with ⟨q, hq, _, hv⟩
  have := (List.mem_filter.mp hq).2
  simp at this
  exact this hv

lemma mapGet_filter_value_of_nodup (m : List (String × String)) (k c : String)
    (hkeys : (m.map Prod.fst).Nodup) (h : mapGet m k = some c) :
    mapGet (m.filter fun p => p.2 ≠ c) k = none := by
  induction m with
  | nil => simp [mapGet] at h
  | cons q rest ih =>
    have hkeys2 : (rest.map Prod.fst).Nodup := (List.nodup_cons.mp hkeys).2
    have hknotin : q.1 ∉ rest.map Prod.fst := (List.nodup_cons.mp hkeys).1
    by_cases hq : q.1 = k
    · have hv : q.2 = c := by
        unfold mapGet at h
        rw [List.find?_cons_of_pos rest (by simpa using hq)] at h
        simpa using h
      have hrest : ∀ p ∈ rest.filter (fun p => decide (p.2 ≠ c)),
          ¬ (decide (p.1 = k) = true) := by
        intro p hp
        simp only [decide_eq_true_eq]
        intro hpk
        exact hknotin
          (hq ▸ hpk ▸ List.mem_map_of_mem Prod.fst (List.mem_of_mem_filter hp))
      unfold mapGet
      rw [List.filter_cons_of_neg (by simp [hv]), List.find?_eq_none.mpr hrest]
      rfl
    · have hr : mapGet rest k = some c := by
        unfold mapGet at h ⊢
        rwa [List.find?_cons_of_neg rest (by simpa using hq)] at h
      have ihr := ih hkeys2 hr
      by_cases hqf : q.2 = c
      · unfold mapGet
        unfold mapGet at ihr
        rw [List.filter_cons_of_neg (by simp [hqf])]
        exact ihr
      · have hpos : (decide (q.2 ≠ c)) = true := by simpa using hqf
        unfold mapGet
        unfold mapGet at ihr
        rw [List.filter_cons, if_pos hpos,
          List.find?_cons_of_neg _ (by simpa using hq)]
        exact ihr

/-- C5: disconnecting a socket clears EVERY room-host slot it held (no room
in the resulting state records it as host), and — provided the host map has
no duplicate room keys, which every reachable state satisfies — a subsequent
joiner of any room the socket hosted becomes that room's new host. -/
theorem C5_release_all_hosts (st : ServerState) (c : String)
    (hkeys : (st.roomHost.map Prod.fst).Nodup) :
    (∀ room, mapGet ((disconnectHandler st c).1).roomHost room ≠ some c) ∧
    (∀ room d, room ≠ "" → mapGet st.roomHost room = some c →
      mapGet ((rtcJoinHandler (disconnectHandler st c).1 d room).1).roomHost room
        = some d) := by
  constructor
  · intro room
    exact mapGet_filter_value_ne st.roomHost c room
  · intro room d hroom hhost
    have hnone : mapGet ((disconnectHandler st c).1).roomHost room = none := by
      simpa [disconnectHandler] using
        mapGet_filter_value_of_nodup st.roomHost room c hkeys hhost
    have hhas : mapHas ((disconnectHandler st c).1).roomHost room = false := by
      rw [mapHas_eq_isSome_mapGet, hnone]
      rfl
    simp only [rtcJoinHandler, if_neg hroom, hhas]
    simpa [hhas] using
      mapGet_mapSet_self ((disconnectHandler st c).1).roomHost room d

/-- C5 witness: socket `"c"` hosting rooms `"r1"` and `"r2"` disconnects;
both slots are cleared and `"d"` can claim `"r1"`. -/
theorem C5_release_all_hosts_witness :
    (mapGet ((disconnectHandler ⟨[⟨"c", ""⟩], [("r1", "c"), ("r2", "c")], []⟩ "c").1).roomHost "r1" ≠ some "c") ∧
    mapGet ((rtcJoinHandler (disconnectHandler ⟨[⟨"c", ""⟩], [("r1", "c"), ("r2", "c")], []⟩ "c").1 "d" "r1").1).roomHost "r1"
      = some "d" := by
  have h := C5_release_all_hosts ⟨[⟨"c", ""⟩], [("r1", "c"), ("r2", "c")], []⟩ "c"
    (by decide)
  exact ⟨h.1 "r1", h.2 "r1" "d" (by decide) (by decide)⟩

end Chat

namespace Chat

/-- C2: for a room-end request on a non-empty room from a genuine (non-empty)
socket id: if the requester is the recorded host, exactly one `meeting:ended`
notification is emitted to the whole room (every current member receives it),
the room's host entry is cleared, and the room's member group is emptied; for
any other requester (including when the room has no host) exactly one denial
is emitted to the requester alone and the state is completely unchanged. -/
theorem C2_end_room_host_gated (st : ServerState) (sid room : String)
    (hroom : room ≠ "") (hsid : sid ≠ "") :
    (mapGet st.roomHost room = some sid →
      (meetingEndHandler st sid room).2 = [⟨st, .meetingEnded room⟩] ∧
      (∀ m ∈ groupMembers st.rooms room, m ∈ recipients st (.meetingEnded room)) ∧
      mapGet ((meetingEndHandler st sid room).1).roomHost room = none ∧
      groupMembers ((meetingEndHandler st sid room).1).rooms room = []) ∧
    (mapGet st.roomHost room ≠ some sid →
      (meetingEndHandler st sid room).2 = [⟨st, .meetingEndDenied sid⟩] ∧
      recipients st (.meetingEndDenied sid) = [sid] ∧
      (meetingEndHandler st sid room).1 = st) := by
  constructor
  · intro hhost
    have hunfold : meetingEndHandler st sid room
        = ({ st with
              roomHost := mapDelete st.roomHost room,
              rooms := (groupMembers st.rooms room).foldl
                (fun rs c => groupLeave rs room c) st.rooms },
           [⟨st, .meetingEnded room⟩]) := by
      simp [meetingEndHandler, hroom, hhost, hsid]
    refine ⟨by rw [hunfold], ?_, ?_, ?_⟩
    · intro m hm
      exact mem_targetGroup_of_mem_groupMembers st room m hm
    · rw [hunfold]
      exact mapGet_mapDelete_self st.roomHost room
    · rw [hunfold]
      show groupMembers
        ((groupMembers st.rooms room).foldl (fun rs c => groupLeave rs room c) st.rooms)
          room = []
      rw [groupMembers_leaveAll]
      apply List.filter_eq_nil_iff.mpr
      intro a ha
      simp [ha]
  · intro hdeny
    cases hhost : mapGet st.roomHost room with
    | none => simp [meetingEndHandler, hroom, hhost, recipients]
    | some h =>
      have hne : ¬ (h = sid) := by
        intro heq
        exact hdeny (heq ▸ hhost)
      simp [meetingEndHandler, hroom, hhost, hne, recipients]

/-- C2 witness: `"a"` and `"b"` join `"r"` (so `"a"` is host); `"b"`'s end
request is denied with the state untouched, while `"a"`'s request ends the
room, clears the host and empties the membership. -/
theorem C2_end_room_host_gated_witness :
    ((meetingEndHandler (run initState [.rtcJoin "a" "r", .rtcJoin "b" "r"]) "b" "r").1
        = run initState [.rtcJoin "a" "r", .rtcJoin "b" "r"]) ∧
    mapGet ((meetingEndHandler (run initState [.rtcJoin "a" "r", .rtcJoin "b" "r"]) "a" "r").1).roomHost "r" = none ∧
    groupMembers ((meetingEndHandler (run initState [.rtcJoin "a" "r", .rtcJoin "b" "r"]) "a" "r").1).rooms "r" = [] := by
  have hb := (C2_end_room_host_gated (run initState [.rtcJoin "a" "r", .rtcJoin "b" "r"])
    "b" "r" (by decide) (by decide)).2 (by decide)
  have ha := (C2_end_room_host_gated (run initState [.rtcJoin "a" "r", .rtcJoin "b" "r"])
    "a" "r" (by decide) (by decide)).1 (by decide)
  exact ⟨hb.2.2, ha.2.2.1, ha.2.2.2⟩

end Chat

namespace Chat

/-- C6: a chat payload whose message trims non-empty yields exactly one
`chat:message` emission, broadcast to every connected socket (sender
included), carrying the trimmed message, a `userId` resolved as
`payload.userId` if non-empty, else the sender's registered presence
`userId` if non-empty, else the sender's socket id, and a timestamp equal to
`payload.timestamp` when supplied, else the relay's current time. -/
theorem C6_chat_relay (st : ServerState) (sid : String) (p : ChatMessagePayload)
    (now : String) (hmsg : trimmedMessageOf p ≠ "") :
    ∃ uid ts,
      chatHandler st sid p now
        = (st, [⟨st, .chatMessage uid (trimmedMessageOf p) ts⟩]) ∧
      (p.userId ≠ "" → uid = p.userId) ∧
      (p.userId = "" →
        ∀ u, st.onlineUsers.find? (fun v => v.socketId = sid) = some u →
          u.userId ≠ "" → uid = u.userId) ∧
      (p.userId = "" →
        ∀ u, st.onlineUsers.find? (fun v => v.socketId = sid) = some u →
          u.userId = "" → uid = sid) ∧
      (p.userId = "" → st.onlineUsers.find? (fun v => v.socketId = sid) = none →
        uid = sid) ∧
      (∀ t, p.timestamp = some t → ts = t) ∧
      (p.timestamp = none → ts = now) ∧
      recipients st (.chatMessage uid (trimmedMessageOf p) ts) = allSocketIds st ∧
      (isConnected st sid = true →
        sid ∈ recipients st (.chatMessage uid (trimmedMessageOf p) ts)) := by
  refine ⟨(if p.userId ≠ "" then p.userId else
      match st.onlineUsers.find? (fun v => v.socketId = sid) with
      | some u => if u.userId ≠ "" then u.userId else sid
      | none => sid),
    p.timestamp.getD now, ?_, ?_, ?_, ?_, ?_, ?_, ?_, rfl, ?_⟩
  · simp only [chatHandler, if_neg hmsg]
  · intro h
    rw [if_pos h]
  · intro h u hu hne
    simp [h, hu, hne]
  · intro h u hu hempty
    simp [h, hu, hempty]
  · intro h hnone
    simp [h, hnone]
  · intro t ht
    simp [ht]
  · intro h
    simp [h]
  · intro h
    exact mem_allSocketIds_of_isConnected st sid h

/-- C6 witness: `"a"` (registered as `"alice"`) sends `"  hi  "` with no
payload identity and no timestamp; the relay broadcasts `"hi"` as
`"alice"` stamped with the relay clock, to both connected sockets. -/
theorem C6_chat_relay_witness :
    ∃ uid ts,
      chatHandler ⟨[⟨"a", "alice"⟩, ⟨"b", "bob"⟩], [], []⟩ "a"
          ⟨"", some "  hi  ", none⟩ "t0"
        = (⟨[⟨"a", "alice"⟩, ⟨"b", "bob"⟩], [], []⟩,
           [⟨⟨[⟨"a", "alice"⟩, ⟨"b", "bob"⟩], [], []⟩,
             .chatMessage uid (trimmedMessageOf ⟨"", some "  hi  ", none⟩) ts⟩]) ∧
      ("" ≠ "" → uid = "") ∧
      ("" = "" →
        ∀ u, [(⟨"a", "alice"⟩ : OnlineUser), ⟨"b", "bob"⟩].find?
            (fun v => v.socketId = "a") = some u →
          u.userId ≠ "" → uid = u.userId) ∧
      ("" = "" →
        ∀ u, [(⟨"a", "alice"⟩ : OnlineUser), ⟨"b", "bob"⟩].find?
            (fun v => v.socketId = "a") = some u →
          u.userId = "" → uid = "a") ∧
      ("" = "" → [(⟨"a", "alice"⟩ : OnlineUser), ⟨"b", "bob"⟩].find?
          (fun v => v.socketId = "a") = none → uid = "a") ∧
      (∀ t, (none : Option String) = some t → ts = t) ∧
      ((none : Option String) = none → ts = "t0") ∧
      recipients ⟨[⟨"a", "alice"⟩, ⟨"b", "bob"⟩], [], []⟩
          (.chatMessage uid (trimmedMessageOf ⟨"", some "  hi  ", none⟩) ts)
        = allSocketIds ⟨[⟨"a", "alice"⟩, ⟨"b", "bob"⟩], [], []⟩ ∧
      (isConnected ⟨[⟨"a", "alice"⟩, ⟨"b", "bob"⟩], [], []⟩ "a" = true →
        "a" ∈ recipients ⟨[⟨"a", "alice"⟩, ⟨"b", "bob"⟩], [], []⟩
          (.chatMessage uid (trimmedMessageOf ⟨"", some "  hi  ", none⟩) ts)) :=
  C6_chat_relay ⟨[⟨"a", "alice"⟩, ⟨"b", "bob"⟩], [], []⟩ "a"
    ⟨"", some "  hi  ", none⟩ "t0" (by decide)

end Chat

namespace Chat

/-- C8: with all three fields non-empty, each of the offer/answer/ice
handlers leaves the state untouched and emits exactly one forward tagged
with the sender's socket id — for EVERY state, with no hypothesis that the
sender or the target is a member of the carried room (no membership check);
when the target names a connected socket that is not also an explicit group
name, the forward is delivered to that socket alone.  If any required field
is empty the event is dropped with no emission and no state change. -/
theorem C8_signal_forward (st : ServerState) (sid room target payload : String) :
    (room ≠ "" → target ≠ "" → payload ≠ "" →
      rtcOfferHandler st sid room target payload
        = (st, [⟨st, .rtcOffer target sid payload⟩]) ∧
      rtcAnswerHandler st sid room target payload
        = (st, [⟨st, .rtcAnswer target sid payload⟩]) ∧
      rtcIceHandler st sid room target payload
        = (st, [⟨st, .rtcIce target sid payload⟩]) ∧
      (isConnected st target = true → groupMembers st.rooms target = [] →
        target ≠ sid →
        recipients st (.rtcOffer target sid payload) = [target] ∧
        recipients st (.rtcAnswer target sid payload) = [target] ∧
        recipients st (.rtcIce target sid payload) = [target])) ∧
    ((room = "" ∨ target = "" ∨ payload = "") →
      rtcOfferHandler st sid room target payload = (st, []) ∧
      rtcAnswerHandler st sid room target payload = (st, []) ∧
      rtcIceHandler st sid room target payload = (st, [])) := by
  constructor
  · intro hr ht hp
    refine ⟨by simp [rtcOfferHandler, hr, ht, hp],
      by simp [rtcAnswerHandler, hr, ht, hp],
      by simp [rtcIceHandler, hr, ht, hp], ?_⟩
    intro hconn hempty hne
    have htg : targetGroup st target = [target] := by
      simp [targetGroup, hconn, hempty]
    refine ⟨?_, ?_, ?_⟩ <;> simp [recipients, htg, hne]
  · intro h
    rcases h with h | h | h <;>
      exact ⟨by simp [rtcOfferHandler, h], by simp [rtcAnswerHandler, h],
        by simp [rtcIceHandler, h]⟩

/-- C8 witness: in a two-socket state with no rooms joined at all, `"a"`
forwards an offer carried with room `"r"` (of which neither socket is a
member) and it is delivered to `"b"` only; an offer with an empty `to`
field is dropped. -/
theorem C8_signal_forward_witness :
    (rtcOfferHandler ⟨[⟨"a", ""⟩, ⟨"b", ""⟩], [], []⟩ "a" "r" "b" "sdp"
        = (⟨[⟨"a", ""⟩, ⟨"b", ""⟩], [], []⟩,
           [⟨⟨[⟨"a", ""⟩, ⟨"b", ""⟩], [], []⟩, .rtcOffer "b" "a" "sdp"⟩]) ∧
      recipients ⟨[⟨"a", ""⟩, ⟨"b", ""⟩], [], []⟩ (.rtcOffer "b" "a" "sdp")
        = ["b"]) ∧
    rtcOfferHandler ⟨[⟨"a", ""⟩, ⟨"b", ""⟩], [], []⟩ "a" "r" "" "sdp"
        = (⟨[⟨"a", ""⟩, ⟨"b", ""⟩], [], []⟩, []) := by
  have h := C8_signal_forward ⟨[⟨"a", ""⟩, ⟨"b", ""⟩], [], []⟩ "a" "r" "b" "sdp"
  have hfwd := h.1 (by decide) (by decide) (by decide)
  have hrec := hfwd.2.2.2 (by decide) (by decide) (by decide)
  have h2 := C8_signal_forward ⟨[⟨"a", ""⟩, ⟨"b", ""⟩], [], []⟩ "a" "r" "" "sdp"
  exact ⟨⟨hfwd.1, hrec.1⟩, (h2.2 (Or.inr (Or.inl rfl))).1⟩

end Chat

namespace Chat

/-- The implicit invariant of C10: every connection id recorded as a host in
the room-host map belongs to a currently connected participant. -/
def HostInv (st : ServerState) : Prop :=
  ∀ p ∈ st.roomHost, ∃ u ∈ st.onlineUsers, u.socketId = p.2

/-- C10: `HostInv` is preserved by every event handler, given that the
events a live socket can actually produce come from a connected socket
(socket.io only dispatches `newUser` and `rtc:join` listeners for sockets
that went through `connection`, which registers them). -/
theorem C10_hosts_are_connected (st : ServerState) (e : Event) (hinv : HostInv st)
    (hnew : ∀ sid u, e = .newUser sid u → isConnected st sid = true)
    (hjoin : ∀ sid room, e = .rtcJoin sid room → isConnected st sid = true) :
    HostInv (step st e).1 := by
  cases e with
  | connect sid =>
    intro p hp
    simp only [step, connectHandler] at hp ⊢
    rcases hinv p hp with ⟨u, hu, hsid⟩
    exact ⟨u, List.mem_append_left _ hu, hsid⟩
  | newUser sid u =>
    by_cases hu : u = ""
    · simpa [step, newUserHandler, hu] using hinv
    · have hconn := hnew sid u rfl
      have hann : announce st.onlineUsers sid u
          = setFirstBySocket st.onlineUsers sid u := by
        unfold announce isConnected at *
        rw [if_pos hconn]
      intro p hp
      simp only [step, newUserHandler, if_neg hu] at hp ⊢
      rw [hann]
      rcases hinv p hp with ⟨w, hw, hwid⟩
      have hmem : p.2 ∈ (setFirstBySocket st.onlineUsers sid u).map
          (fun v => v.socketId) := by
        rw [setFirstBySocket_map_socketId]
        exact List.mem_map.mpr ⟨w, hw, hwid⟩
      rcases List.mem_map.mp hmem with ⟨v, hv, hvid⟩
      exact ⟨v, hv, hvid⟩
  | chatMessage sid p now =>
    have hst : (chatHandler st sid p now).1 = st := by
      simp only [chatHandler]
      split <;> rfl
    simpa [step, hst] using hinv
  | rtcJoin sid room =>
    by_cases hroom : room = ""
    · simpa [step, rtcJoinHandler, hroom] using hinv
    · have hconn := hjoin sid room rfl
      intro p hp
      by_cases hhas : mapHas st.roomHost room = true
      · simp only [step, rtcJoinHandler, if_neg hroom, hhas, if_true] at hp ⊢
        exact hinv p hp
      · have hhas2 : mapHas st.roomHost room = false := by simpa using hhas
        simp only [step, rtcJoinHandler, if_neg hroom, hhas2, Bool.false_eq_true,
          if_false] at hp ⊢
        simp only [mapSet, hhas2, Bool.false_eq_true, if_false, List.mem_append,
          List.mem_singleton] at hp
        rcases hp with hp | hp
        · exact hinv p hp
        · subst hp
          unfold isConnected at hconn
          rcases List.any_eq_true.mp hconn with ⟨v, hv, hvid⟩
          simp at hvid
          exact ⟨v, hv, hvid⟩
  | rtcLeave sid room =>
    by_cases hroom : room = ""
    · simpa [step, rtcLeaveHandler, hroom] using hinv
    · intro p hp
      simp only [step, rtcLeaveHandler, if_neg hroom] at hp ⊢
      exact hinv p hp
  | rtcOffer sid room target offer =>
    have hst : (rtcOfferHandler st sid room target offer).1 = st := by
      simp only [rtcOfferHandler]
      split <;> rfl
    simpa [step, hst] using hinv
  | rtcAnswer sid room target answer =>
    have hst : (rtcAnswerHandler st sid room target answer).1 = st := by
      simp only [rtcAnswerHandler]
      split <;> rfl
    simpa [step, hst] using hinv
  | rtcIce sid room target candidate =>
    have hst : (rtcIceHandler st sid room target candidate).1 = st := by
      simp only [rtcIceHandler]
      split <;> rfl
    simpa [step, hst] using hinv
  | meetingEnd sid room =>
    by_cases hroom : room = ""
    · simpa [step, meetingEndHandler, hroom] using hinv
    · cases hhost : mapGet st.roomHost room with
      | none =>
        simp only [step, meetingEndHandler, if_neg hroom, hhost]
        exact hinv
      | some h =>
        by_cases hcond : (decide (h ≠ "") && decide (h = sid)) = true
        · intro p hp
          simp only [step, meetingEndHandler, if_neg hroom, hhost, hcond,
            if_true] at hp ⊢
          exact hinv p (List.mem_of_mem_filter hp)
        · intro p hp
          simp only [step, meetingEndHandler, if_neg hroom, hhost, hcond,
            Bool.false_eq_true, if_false] at hp ⊢
          exact hinv p hp
  | meetingLeave sid room =>
    by_cases hroom : room = ""
    · simpa [step, meetingLeaveHandler, hroom] using hinv
    · intro p hp
      simp only [step, meetingLeaveHandler, if_neg hroom] at hp ⊢
      exact hinv p hp
  | disconnect sid =>
    intro p hp
    simp only [step, disconnectHandler] at hp ⊢
    have hmem := List.mem_of_mem_filter hp
    have hne : p.2 ≠ sid := by simpa using (List.mem_filter.mp hp).2
    rcases hinv p hmem with ⟨u, hu, huid⟩
    refine ⟨u, List.mem_filter.mpr ⟨hu, ?_⟩, huid⟩
    simp [huid, hne]

/-- C10 witness: a connected socket `"a"` hosting `"r"` joins a second room
`"s"`; the invariant holds afterwards. -/
theorem C10_hosts_are_connected_witness :
    HostInv (step ⟨[⟨"a", ""⟩], [("r", "a")], [("r", ["a"])]⟩ (.rtcJoin "a" "s")).1 :=
  C10_hosts_are_connected ⟨[⟨"a", ""⟩], [("r", "a")], [("r", ["a"])]⟩
    (.rtcJoin "a" "s") (by unfold HostInv; decide)
    (fun sid u h => nomatch h)
    (fun sid room h => by cases h; decide)

end Chat
